import Mathlib

/-!
Shallow embedding of the gaemboi CPU core (src/cpu/registers.rs,
src/cpu/instructions.rs, src/cpu/cpu.rs) and proofs about it.

Machine integers are modelled as `Nat` with explicit reduction modulo
`2^8` / `2^16` where the Rust code's `u8` / `u16` types wrap; bitwise
compositions of byte-valued quantities (`(hi << 8) | lo` with `hi lo : u8`)
are written arithmetically as `hi * 256 + lo`, and opcode bit-field
extractions (`(op & 0xC0) >> 6` etc.) as the equal div/mod expressions.
Fallible Rust functions returning `anyhow::Result` are embedded as
`Except Err`.
-/

set_option maxRecDepth 4096

deriving instance DecidableEq for Except

namespace Gaemboi

/-- The 8-bit register identifiers (enum `Register8` in registers.rs). -/
inductive Register8 where
  | A | F | B | C | D | E | H | L
deriving DecidableEq

/-- The 16-bit register identifiers (enum `Register16` in registers.rs). -/
inductive Register16 where
  | AF | BC | DE | HL | SP | PC
deriving DecidableEq

/-- Load operands (enum `Operand` in instructions.rs). -/
inductive Operand where
  | Reg8 (r : Register8)
  | Reg16 (r : Register16)
  | Immediate8
  | Immediate16
deriving DecidableEq

/-- Post-load side effect (enum `FollowUp` in instructions.rs). -/
inductive FollowUp where
  | Inc | Dec
deriving DecidableEq

/-- Decoded operation kinds (enum `InstructionType` in instructions.rs). -/
inductive InstructionType where
  | Load (src : Operand) (dest : Operand) (followup : Option FollowUp)
  | Arith8
  | Arith16
  | Inc (op : Operand)
  | Dec (op : Operand)
  | Nop
  | Halt
deriving DecidableEq

/-- struct `Instruction` in instructions.rs: an operation kind plus a cycle count. -/
structure Instruction where
  instruction : InstructionType
  cycles : Nat
deriving DecidableEq

/-- `Instruction::load` -/
def Instruction.load (src dest : Operand) (followup : Option FollowUp) : Instruction :=
  ⟨.Load src dest followup, 1⟩

/-- `Instruction::halt` -/
def Instruction.halt : Instruction := ⟨.Halt, 1⟩

/-- `Instruction::nop` -/
def Instruction.nop : Instruction := ⟨.Nop, 1⟩

/-- `Instruction::inc` -/
def Instruction.inc (op : Operand) : Instruction := ⟨.Inc op, 1⟩

/-- `Instruction::dec` -/
def Instruction.dec (op : Operand) : Instruction := ⟨.Dec op, 1⟩

/-- The error values of errors.rs (`ReadError`, `WriteError`, `DecodeError`,
`CpuError`), merged into one type since the Rust code erases them into
`anyhow::Error`.  `unmatchedOpcode` stands for the formatted
"Failed to match opcode" error of `Cpu::decode`. -/
inductive Err where
  | readMemoryOverflow
  | writeMemoryOverflow
  | rpTableLookupError (n : Nat)
  | rp1TableLookupError (n : Nat)
  | aluDecodeError (n : Nat)
  | unmatchedOpcode (opcode : Nat)
  | unsupportedInstruction (i : Instruction)
  | invalidLoadOperands (src dest : Operand)
  | fetchError
deriving DecidableEq

/-- struct `Registers` in registers.rs: the raw register file.
All fields are `u8` except `sp` and `pc` which are `u16`. -/
structure Registers where
  a : Nat
  f : Nat
  b : Nat
  c : Nat
  d : Nat
  e : Nat
  h : Nat
  l : Nat
  sp : Nat
  pc : Nat

/-- `Registers::default()`: all registers zero. -/
def Registers.default : Registers := ⟨0, 0, 0, 0, 0, 0, 0, 0, 0, 0⟩

/-- The `u8`/`u16` range invariants the Rust field types guarantee. -/
def Registers.Wf (r : Registers) : Prop :=
  r.a < 256 ∧ r.f < 256 ∧ r.b < 256 ∧ r.c < 256 ∧ r.d < 256 ∧ r.e < 256 ∧
    r.h < 256 ∧ r.l < 256 ∧ r.sp < 65536 ∧ r.pc < 65536

/-- `RegisterTrait::fetch` for 8-bit identifiers (dispatch in
`impl RegisterTrait for Register8` down to the `impl_register_trait!` bodies). -/
def Registers.fetch8 (regs : Registers) : Register8 → Nat
  | .A => regs.a
  | .F => regs.f
  | .B => regs.b
  | .C => regs.c
  | .D => regs.d
  | .E => regs.e
  | .H => regs.h
  | .L => regs.l

/-- `RegisterTrait::write` for 8-bit identifiers. -/
def Registers.write8 (regs : Registers) (r : Register8) (v : Nat) : Registers :=
  match r with
  | .A => { regs with a := v }
  | .F => { regs with f := v }
  | .B => { regs with b := v }
  | .C => { regs with c := v }
  | .D => { regs with d := v }
  | .E => { regs with e := v }
  | .H => { regs with h := v }
  | .L => { regs with l := v }

/-- `RegisterTrait::fetch` for 16-bit identifiers.  Pairs compose the two
`u8` halves as `((high as u16) << 8) | (low as u16)` (the
`impl_register_trait16!` body), written `high * 256 + low`; `SP`/`PC`
return their `u16` field directly. -/
def Registers.fetch16 (regs : Registers) : Register16 → Nat
  | .AF => regs.a * 256 + regs.f
  | .BC => regs.b * 256 + regs.c
  | .DE => regs.d * 256 + regs.e
  | .HL => regs.h * 256 + regs.l
  | .SP => regs.sp
  | .PC => regs.pc

/-- `RegisterTrait::write` for 16-bit identifiers.  Pairs split the value
into `high = (value >> 8) as u8` and `low = value as u8`
(`impl_register_trait16!`); `SP`/`PC` store the `u16` value. -/
def Registers.write16 (regs : Registers) (r : Register16) (v : Nat) : Registers :=
  match r with
  | .AF => { regs with a := v / 256 % 256, f := v % 256 }
  | .BC => { regs with b := v / 256 % 256, c := v % 256 }
  | .DE => { regs with d := v / 256 % 256, e := v % 256 }
  | .HL => { regs with h := v / 256 % 256, l := v % 256 }
  | .SP => { regs with sp := v % 65536 }
  | .PC => { regs with pc := v % 65536 }

/-- `RegisterTrait::inc` for 8-bit identifiers: `registers.reg += 1` with
`u8` wraparound. -/
def Registers.inc8 (regs : Registers) (r : Register8) : Registers :=
  regs.write8 r ((regs.fetch8 r + 1) % 256)

/-- `RegisterTrait::dec` for 8-bit identifiers: `registers.reg -= 1` with
`u8` wraparound. -/
def Registers.dec8 (regs : Registers) (r : Register8) : Registers :=
  regs.write8 r ((regs.fetch8 r + 255) % 256)

/-- `RegisterTrait::inc` for 16-bit identifiers: fetch, add one with `u16`
wraparound, write back (for pairs this is the `impl_register_trait16!`
body; for `SP`/`PC` it is `reg += 1` on the `u16` field). -/
def Registers.inc16 (regs : Registers) (r : Register16) : Registers :=
  regs.write16 r ((regs.fetch16 r + 1) % 65536)

/-- `RegisterTrait::dec` for 16-bit identifiers, with `u16` wraparound. -/
def Registers.dec16 (regs : Registers) (r : Register16) : Registers :=
  regs.write16 r ((regs.fetch16 r + 65535) % 65536)

/-- `Registers::as_addr`: read a 16-bit register as an address. -/
def Registers.as_addr (regs : Registers) (r : Register16) : Nat :=
  regs.fetch16 r

/-- The memory size: `Memory` in cpu.rs is declared as `[u8; 0xFFFF]`,
so `self.0.len() = 0xFFFF = 65535`. -/
def memSize : Nat := 0xFFFF

/-- struct `Memory` in cpu.rs, as a map from addresses to byte values. -/
structure Memory where
  data : Nat → Nat

/-- `Memory::default()`: zero-filled. -/
def Memory.default : Memory := ⟨fun _ => 0⟩

/-- `Memory::read_byte`: `self.0.get(src).ok_or(ReadError::MemoryOverflow)`,
which succeeds exactly when the index is below the array length. -/
def Memory.read_byte (m : Memory) (src : Nat) : Except Err Nat :=
  if src < memSize then .ok (m.data src) else .error .readMemoryOverflow

/-- `Memory::read`: read `len` bytes starting at `src`; fails when
`src + len` exceeds the array length. -/
def Memory.read (m : Memory) (src : Nat) (len : Nat) : Except Err (List Nat) :=
  if src + len ≤ memSize then
    .ok ((List.range len).map fun i => m.data (src + i))
  else .error .readMemoryOverflow

/-- `Memory::write`: bounds-check `dest + value.len()` first, then copy the
whole buffer (`copy_from_slice`). -/
def Memory.write (m : Memory) (dest : Nat) (value : List Nat) : Except Err Memory :=
  if dest + value.length ≤ memSize then
    .ok ⟨fun i => if dest ≤ i ∧ i < dest + value.length then value.getD (i - dest) 0
          else m.data i⟩
  else .error .writeMemoryOverflow

/-- `Memory::write_byte`: `self.0.get_mut(dest)`, update in place. -/
def Memory.write_byte (m : Memory) (dest : Nat) (value : Nat) : Except Err Memory :=
  if dest < memSize then
    .ok ⟨fun i => if i = dest then value else m.data i⟩
  else .error .writeMemoryOverflow

/-- `R_TABLE` in instructions.rs: the 8-entry register lookup table. -/
def R_TABLE : List Operand :=
  [.Reg8 .B, .Reg8 .C, .Reg8 .D, .Reg8 .E, .Reg8 .H, .Reg8 .L, .Reg16 .HL, .Reg8 .A]

/-- `RP_TABLE` in instructions.rs: the 4-entry register-pair lookup table. -/
def RP_TABLE : List Operand :=
  [.Reg16 .BC, .Reg16 .DE, .Reg16 .HL, .Reg16 .SP]

/-- `RP2_TABLE` in instructions.rs. -/
def RP2_TABLE : List Operand :=
  [.Reg16 .BC, .Reg16 .DE, .Reg16 .HL, .Reg16 .AF]

/-- `Operand::from_r_table`: `R_TABLE.get(trip)`, failing with
`DecodeError::RPTableLookupError` out of range. -/
def Operand.from_r_table (trip : Nat) : Except Err Operand :=
  match R_TABLE.get? trip with
  | some op => .ok op
  | none => .error (.rpTableLookupError trip)

/-- `Operand::from_rp_table`: `RP_TABLE.get(dub)`, failing with
`DecodeError::RP1TableLookupError` out of range. -/
def Operand.from_rp_table (dub : Nat) : Except Err Operand :=
  match RP_TABLE.get? dub with
  | some op => .ok op
  | none => .error (.rp1TableLookupError dub)

/-- struct `Cpu` in cpu.rs: register file plus memory. -/
structure Cpu where
  registers : Registers
  mem : Memory

/-- `Cpu::default()`. -/
def Cpu.initial : Cpu := ⟨Registers.default, Memory.default⟩

/-- `Cpu::fetch_word_from_operand`: fetch a `u16`.  Only `Reg16` and
`Immediate16` operands are allowed; everything else fails with
`CpuError::FetchError`.  `Immediate16` reads the low then the high byte at
`PC` and increments `PC` twice. -/
def fetch_word_from_operand (c : Cpu) (operand : Operand) : Except Err (Nat × Cpu) :=
  match operand with
  | .Reg16 reg => .ok (c.registers.fetch16 reg, c)
  | .Immediate16 =>
    let pc := c.registers.fetch16 .PC
    match c.mem.read_byte pc with
    | .error e => .error e
    | .ok lo =>
      match c.mem.read_byte ((pc + 1) % 65536) with
      | .error e => .error e
      | .ok hi =>
        .ok (hi * 256 + lo,
          { c with registers := (c.registers.inc16 .PC).inc16 .PC })
  | _ => .error .fetchError

/-- `Cpu::fetch_byte_from_operand`: fetch a `u8` according to the operand.
`Reg8` reads the register; `Reg16` reads memory at the register's value
(`as_addr`); `Immediate8` reads the byte at `PC` and writes `PC := pc + 1`;
`Immediate16` reads the low and high address bytes at `PC`, writes
`PC := pc + 2`, then reads memory at `(hi << 8) | lo`. -/
def fetch_byte_from_operand (c : Cpu) (operand : Operand) : Except Err (Nat × Cpu) :=
  match operand with
  | .Reg8 reg => .ok (c.registers.fetch8 reg, c)
  | .Reg16 reg =>
    match c.mem.read_byte (c.registers.as_addr reg) with
    | .ok b => .ok (b, c)
    | .error e => .error e
  | .Immediate8 =>
    let pc := c.registers.fetch16 .PC
    match c.mem.read_byte pc with
    | .ok byte => .ok (byte, { c with registers := c.registers.write16 .PC (pc + 1) })
    | .error e => .error e
  | .Immediate16 =>
    let pc := c.registers.fetch16 .PC
    match c.mem.read_byte pc with
    | .error e => .error e
    | .ok lo =>
      match c.mem.read_byte ((pc + 1) % 65536) with
      | .error e => .error e
      | .ok hi =>
        let c' : Cpu := { c with registers := c.registers.write16 .PC (pc + 2) }
        match c'.mem.read_byte (hi * 256 + lo) with
        | .ok b => .ok (b, c')
        | .error e => .error e

/-- `Cpu::fetch_and_execute`.  Note that the `Load` arm destructures
`InstructionType::Load { src, dest, .. }`, discarding the `followup`
field, exactly as the Rust source does; `Inc`, `Dec`, `Halt`, `Arith8`
and `Arith16` all fall into the final catch-all arm, which fails with
`CpuError::UnsupportedInstruction`. -/
def fetch_and_execute (c : Cpu) (instr : Instruction) : Except Err Cpu :=
  match instr.instruction with
  | .Load src dest _ =>
    match dest, src with
    | .Reg8 reg, _ =>
      match fetch_byte_from_operand c src with
      | .ok (byte, c') => .ok { c' with registers := c'.registers.write8 reg byte }
      | .error e => .error e
    | .Reg16 d, .Reg8 _ | .Reg16 d, .Immediate8 =>
      let addr := c.registers.as_addr d
      match fetch_byte_from_operand c src with
      | .ok (byte, c') =>
        match c'.mem.write_byte addr byte with
        | .ok m => .ok { c' with mem := m }
        | .error e => .error e
      | .error e => .error e
    | _, _ => .error (.unsupportedInstruction instr)
  | .Nop => .ok c
  | _ => .error (.unsupportedInstruction instr)

/-- `Cpu::decode`: bit-field decomposition of the opcode byte.  For a `u8`
opcode, `x = (op & 0xC0) >> 6`, `y = (op & 0x38) >> 3`, `q = y & 1`,
`p = y >> 1`, `z = op & 0x07`; these equal the div/mod expressions below.
The chain of conditionals reproduces the Rust `match` arms in order. -/
def decode (opcode : Nat) : Except Err Instruction :=
  let x := opcode / 64 % 4
  let y := opcode / 8 % 8
  let q := y % 2
  let p := y / 2
  let z := opcode % 8
  if x = 0 ∧ z = 2 ∧ p = 0 ∧ q = 0 then
    .ok (Instruction.load (.Reg8 .A) (.Reg16 .BC) none)
  else if x = 0 ∧ z = 2 ∧ p = 1 ∧ q = 0 then
    .ok (Instruction.load (.Reg8 .A) (.Reg16 .DE) none)
  else if x = 0 ∧ z = 2 ∧ p = 2 ∧ q = 0 then
    .ok (Instruction.load (.Reg8 .A) (.Reg16 .HL) (some .Inc))
  else if x = 0 ∧ z = 2 ∧ p = 3 ∧ q = 0 then
    .ok (Instruction.load (.Reg8 .A) (.Reg16 .HL) (some .Dec))
  else if x = 0 ∧ z = 2 ∧ p = 0 ∧ q = 1 then
    .ok (Instruction.load (.Reg16 .BC) (.Reg8 .A) none)
  else if x = 0 ∧ z = 2 ∧ p = 1 ∧ q = 1 then
    .ok (Instruction.load (.Reg16 .DE) (.Reg8 .A) none)
  else if x = 0 ∧ z = 2 ∧ p = 2 ∧ q = 1 then
    .ok (Instruction.load (.Reg16 .HL) (.Reg8 .A) (some .Inc))
  else if x = 0 ∧ z = 2 ∧ p = 3 ∧ q = 1 then
    .ok (Instruction.load (.Reg16 .HL) (.Reg8 .A) (some .Dec))
  else if x = 0 ∧ z = 3 ∧ q = 0 then
    match Operand.from_rp_table p with
    | .ok op => .ok (Instruction.inc op)
    | .error e => .error e
  else if x = 0 ∧ z = 3 ∧ q = 1 then
    match Operand.from_rp_table p with
    | .ok op => .ok (Instruction.dec op)
    | .error e => .error e
  else if x = 1 ∧ y = 6 ∧ z = 6 then
    .ok Instruction.halt
  else if x = 1 then
    match Operand.from_r_table y with
    | .error e => .error e
    | .ok dest =>
      match Operand.from_r_table z with
      | .error e => .error e
      | .ok src =>
        if src = dest then .ok Instruction.nop
        else .ok (Instruction.load src dest none)
  else if x = 0 ∧ z = 6 then
    match Operand.from_r_table y with
    | .error e => .error e
    | .ok dest => .ok (Instruction.load .Immediate8 dest none)
  else if x = 0 ∧ y = 0 ∧ z = 0 then
    .ok Instruction.nop
  else
    .error (.unmatchedOpcode opcode)

/-- `Cpu::step`: fetch `PC`, increment it, read the opcode at the old `PC`,
decode, execute. -/
def step (c : Cpu) : Except Err Cpu :=
  let pc := c.registers.fetch16 .PC
  let c1 : Cpu := { c with registers := c.registers.inc16 .PC }
  match c1.mem.read_byte pc with
  | .error e => .error e
  | .ok opcode =>
    match decode opcode with
    | .error e => .error e
    | .ok instr => fetch_and_execute c1 instr

/-- The preamble of `Cpu::run`: `self.mem.write_byte(Address(0x100), 0x76)?`,
performed before the loop executes any instruction. -/
def runStart (c : Cpu) : Except Err Cpu :=
  match c.mem.write_byte 0x100 0x76 with
  | .ok m => .ok { c with mem := m }
  | .error e => .error e

/-- The `loop { self.step()? }` of `Cpu::run`, with explicit fuel.  The Rust
loop has no success exit at all: it runs until some step returns an error.
Exhausted fuel (`.ok`) means "still running after that many steps". -/
def runFuel : Nat → Cpu → Except Err Cpu
  | 0, c => .ok c
  | n + 1, c =>
    match step c with
    | .ok c' => runFuel n c'
    | .error e => .error e

/-- `Cpu::run`, bounded by fuel: the halt-seeding preamble followed by the
step loop. -/
def run (fuel : Nat) (c : Cpu) : Except Err Cpu :=
  match runStart c with
  | .ok c' => runFuel fuel c'
  | .error e => .error e

/-! ## Claim C1 -/

/-- A CPU with `HL = 0x1000` and memory byte `0x1000 = 0xBC`. -/
def cpuC1 : Cpu := ⟨{ Registers.default with h := 0x10, l := 0x00 },
  ⟨fun i => if i = 0x1000 then 0xBC else 0⟩⟩

/-- Claim C1: opcode `0x2A` decodes to a load carrying `FollowUp::Inc`, but
the executor never applies the followup — `fetch_and_execute` destructures
the `Load` variant with `..`, discarding it.  Executing the decoded
instruction with `HL = 0x1000` and memory `0x1000 = 0xBC` sets `A = 0xBC`
but leaves `HL = 0x1000`, not `0x1001` as the claim requires. -/
theorem c1_followup_never_applied :
    decode 0x2A = .ok (Instruction.load (.Reg16 .HL) (.Reg8 .A) (some .Inc)) ∧
    (fetch_and_execute cpuC1 (Instruction.load (.Reg16 .HL) (.Reg8 .A) (some .Inc))).map
      (fun c => (c.registers.fetch8 .A, c.registers.fetch16 .HL)) = .ok (0xBC, 0x1000) ∧
    (0x1000 : Nat) ≠ 0x1001 :=
  ⟨rfl, rfl, by decide⟩

/-! ## Claim C2 -/

/-- A CPU whose next opcode (after the `run` preamble) is the seeded HALT:
`PC = 0x100`, memory all zero. -/
def cpuC2 : Cpu := ⟨{ Registers.default with pc := 0x100 }, Memory.default⟩

/-- Counterexample to claim C2: running a program whose next opcode is
`0x76` does not terminate in a Halted state with a success result — `run`
terminates with the `UnsupportedInstruction` error produced by executing
the Halt instruction. -/
theorem c2_halt_run_not_success :
    run 1 cpuC2 = .error (.unsupportedInstruction Instruction.halt) :=
  rfl

/-- Claim C2 (amended): executing a Halt instruction is an error — the
executor's catch-all arm returns `UnsupportedInstruction` for it (the Rust
source attaches the context "Stopping Execution at preprogrammed HALT") —
so a step whose opcode is `0x76` returns that error, and any step error
terminates the run loop with that error. -/
theorem c2_halt_terminates_loop_with_error :
    (∀ c : Cpu, fetch_and_execute c Instruction.halt =
      .error (.unsupportedInstruction Instruction.halt)) ∧
    (∀ c : Cpu, c.mem.read_byte (c.registers.fetch16 .PC) = .ok 0x76 →
      step c = .error (.unsupportedInstruction Instruction.halt)) ∧
    (∀ (c : Cpu) (e : Err) (n : Nat), step c = .error e →
      runFuel (n + 1) c = .error e) := by
  refine ⟨fun c => rfl, ?_, ?_⟩
  · intro c h
    simp only [step]
    rw [h]
    rfl
  · intro c e n h
    simp only [runFuel]
    rw [h]

/-- A CPU whose opcode at `PC = 0` is `0x76`. -/
def cpuC2w : Cpu := ⟨Registers.default, ⟨fun i => if i = 0 then 0x76 else 0⟩⟩

/-- Witness for `c2_halt_terminates_loop_with_error` at a concrete state. -/
theorem c2_halt_terminates_loop_with_error_witness :
    step cpuC2w = .error (.unsupportedInstruction Instruction.halt) :=
  c2_halt_terminates_loop_with_error.2.1 cpuC2w rfl

/-! ## Claim C3 -/

/-- Counterexample to claim C3: opcode `0x03` decodes to `INC BC`, but
executing the decoded instruction does not succeed — the executor's
catch-all arm fails with `UnsupportedInstruction`. -/
theorem c3_inc_execute_fails :
    decode 0x03 = .ok (Instruction.inc (.Reg16 .BC)) ∧
    fetch_and_execute Cpu.initial (Instruction.inc (.Reg16 .BC)) =
      .error (.unsupportedInstruction (Instruction.inc (.Reg16 .BC))) :=
  ⟨rfl, rfl⟩

/-- Claim C3 (amended): every opcode with `x = 0, z = 3` decodes to an
`Increment` (`q = 0`) or `Decrement` (`q = 1`) of the RP-table register
selected by `p`, but executing any `Increment` or `Decrement` instruction
fails with `UnsupportedInstruction` instead of delegating to the register
file — the executor does not implement them. -/
theorem c3_inc_dec_decoded_but_unsupported :
    (∀ opcode : Nat, opcode < 256 → opcode / 64 = 0 → opcode % 8 = 3 →
      decode opcode =
        match Operand.from_rp_table (opcode / 8 % 8 / 2) with
        | .ok op => .ok (if opcode / 8 % 8 % 2 = 0 then Instruction.inc op
            else Instruction.dec op)
        | .error e => .error e) ∧
    (∀ (op : Operand) (c : Cpu),
      fetch_and_execute c (Instruction.inc op) =
        .error (.unsupportedInstruction (Instruction.inc op)) ∧
      fetch_and_execute c (Instruction.dec op) =
        .error (.unsupportedInstruction (Instruction.dec op))) := by
  refine ⟨by decide, fun op c => ⟨rfl, rfl⟩⟩

/-- Witness for `c3_inc_dec_decoded_but_unsupported`: opcode `0x0B`
(`DEC BC`) decodes as stated and its execution fails. -/
theorem c3_inc_dec_decoded_but_unsupported_witness :
    decode 0x0B = .ok (Instruction.dec (.Reg16 .BC)) ∧
    fetch_and_execute Cpu.initial (Instruction.dec (.Reg16 .BC)) =
      .error (.unsupportedInstruction (Instruction.dec (.Reg16 .BC))) :=
  ⟨c3_inc_dec_decoded_but_unsupported.1 0x0B (by decide) (by decide) (by decide),
   (c3_inc_dec_decoded_but_unsupported.2 (.Reg16 .BC) Cpu.initial).2⟩

/-! ## Claim C4 -/

/-- Every failure of `Memory::read_byte` is a `MemoryOverflow`. -/
theorem read_byte_error_eq (m : Memory) (x : Nat) (e : Err)
    (h : m.read_byte x = .error e) : e = .readMemoryOverflow := by
  simp only [Memory.read_byte] at h
  split at h
  · exact Except.noConfusion h
  · injection h with h2
    exact h2.symm

/-- A CPU with `PC = 0x100` and memory `0x100 = 0x69`, `0x101 = 0x42`,
`0x4269 = 0xBC` (the state of the repository's own
`test_fetch_byte_loadoperand_im16`). -/
def cpuC4 : Cpu := ⟨{ Registers.default with pc := 0x100 },
  ⟨fun i => if i = 0x100 then 0x69 else if i = 0x101 then 0x42
    else if i = 0x4269 then 0xBC else 0⟩⟩

/-- Counterexample to claim C4: fetching a byte from the `Immediate16`
operand does not fail with `FetchError` — at this state it reads memory,
produces the byte `0xBC`, and advances `PC` from `0x100` to `0x102`. -/
theorem c4_imm16_byte_fetch_succeeds :
    (fetch_byte_from_operand cpuC4 .Immediate16).map
      (fun p => (p.1, p.2.registers.fetch16 .PC)) = .ok (0xBC, 0x102) :=
  rfl

/-- Claim C4 (amended): resolving an `Immediate16` operand in a byte-value
context never fails with `FetchError`; when the two program-counter bytes
and the little-endian address they form are in bounds, it returns the
memory byte at that address and writes `PC := pc + 2` (its only failure
mode is `MemoryOverflow`; `FetchError` belongs to
`fetch_word_from_operand` on operands other than `Reg16`/`Immediate16`). -/
theorem c4_imm16_byte_fetch_reads_memory :
    (∀ c : Cpu, fetch_byte_from_operand c .Immediate16 ≠ .error .fetchError) ∧
    (∀ c : Cpu,
      c.registers.fetch16 .PC < memSize →
      (c.registers.fetch16 .PC + 1) % 65536 < memSize →
      c.mem.data ((c.registers.fetch16 .PC + 1) % 65536) * 256 +
        c.mem.data (c.registers.fetch16 .PC) < memSize →
      fetch_byte_from_operand c .Immediate16 =
        .ok (c.mem.data (c.mem.data ((c.registers.fetch16 .PC + 1) % 65536) * 256 +
              c.mem.data (c.registers.fetch16 .PC)),
          { c with registers := c.registers.write16 .PC (c.registers.fetch16 .PC + 2) })) ∧
    (∀ (c : Cpu) (op : Operand), (op = .Reg8 (.A) ∨ op = .Immediate8) →
      fetch_word_from_operand c op = .error .fetchError) := by
  refine ⟨?_, ?_, ?_⟩
  · intro c
    simp only [fetch_byte_from_operand]
    cases h1 : c.mem.read_byte (c.registers.fetch16 .PC) with
    | error e => have he := read_byte_error_eq _ _ _ h1; subst he; simp
    | ok lo =>
      cases h2 : c.mem.read_byte ((c.registers.fetch16 .PC + 1) % 65536) with
      | error e => have he := read_byte_error_eq _ _ _ h2; subst he; simp
      | ok hi =>
        cases h3 : Memory.read_byte c.mem (hi * 256 + lo) with
        | error e =>
          have he := read_byte_error_eq _ _ _ h3
          subst he
          simp [h3]
        | ok b => simp [h3]
  · intro c h1 h2 h3
    simp [fetch_byte_from_operand, Memory.read_byte, h1, h2, h3]
  · intro c op hop
    rcases hop with h | h <;> subst h <;> rfl

/-- Witness for `c4_imm16_byte_fetch_reads_memory` at the concrete state
`cpuC4`. -/
theorem c4_imm16_byte_fetch_reads_memory_witness :
    fetch_byte_from_operand cpuC4 .Immediate16 =
      .ok (0xBC, { cpuC4 with registers := cpuC4.registers.write16 .PC 0x102 }) :=
  c4_imm16_byte_fetch_reads_memory.2.1 cpuC4 (by decide) (by decide) (by decide)

/-! ## Claim C9 -/

/-- Claim C9: among opcodes with `x = 1`, opcode `0x76` decodes to `Halt`;
any other opcode with `y = z` decodes to `NoOp`; every remaining one
decodes to a `Load` with no followup, destination `R_TABLE[y]` and source
`R_TABLE[z]`; and `R_TABLE` index 6 is the `HL`-as-pointer operand. -/
theorem c9_decode_x1_r_table :
    decode 0x76 = .ok Instruction.halt ∧
    (∀ opcode : Nat, opcode < 256 → opcode / 64 = 1 → opcode ≠ 0x76 →
      opcode / 8 % 8 = opcode % 8 → decode opcode = .ok Instruction.nop) ∧
    (∀ opcode : Nat, opcode < 256 → opcode / 64 = 1 → opcode / 8 % 8 ≠ opcode % 8 →
      decode opcode = .ok (Instruction.load (R_TABLE.getD (opcode % 8) (.Reg8 .B))
        (R_TABLE.getD (opcode / 8 % 8) (.Reg8 .B)) none)) ∧
    R_TABLE.getD 6 (.Reg8 .B) = .Reg16 .HL := by
  refine ⟨by decide, by decide, by decide, by decide⟩

/-- Witness for `c9_decode_x1_r_table`: opcode `0x41` (`LD B,C`). -/
theorem c9_decode_x1_r_table_witness :
    decode 0x41 = .ok (Instruction.load (.Reg8 .C) (.Reg8 .B) none) :=
  c9_decode_x1_r_table.2.2.1 0x41 (by decide) (by decide) (by decide)

/-! ## Claim C6 -/

/-- Claim C6: register-file increment and decrement wrap for every register
identifier: 8-bit registers change by `+1`/`-1` modulo 256 and 16-bit
registers (pairs and `SP`/`PC`) by `+1`/`-1` modulo 65536, with no failure
case. -/
theorem c6_inc_dec_wrap :
    (∀ (r : Register8) (regs : Registers), regs.Wf →
      (regs.inc8 r).fetch8 r = (regs.fetch8 r + 1) % 256 ∧
      (regs.dec8 r).fetch8 r = (regs.fetch8 r + 255) % 256) ∧
    (∀ (r : Register16) (regs : Registers), regs.Wf →
      (regs.inc16 r).fetch16 r = (regs.fetch16 r + 1) % 65536 ∧
      (regs.dec16 r).fetch16 r = (regs.fetch16 r + 65535) % 65536) := by
  constructor
  · intro r regs _
    cases r <;>
      simp [Registers.inc8, Registers.dec8, Registers.fetch8, Registers.write8]
  · intro r regs _
    cases r <;>
      constructor <;>
        simp [Registers.inc16, Registers.dec16, Registers.fetch16, Registers.write16] <;>
          omega

/-- Registers with an 8-bit register at the upper boundary `0xFF`. -/
def regsC6 : Registers := { Registers.default with a := 0xFF }

/-- Witness for `c6_inc_dec_wrap` at the boundaries: incrementing `A` at
`0xFF` yields `0x00`, decrementing `SP` at `0x0000` yields `0xFFFF`. -/
theorem c6_inc_dec_wrap_witness :
    (regsC6.inc8 .A).fetch8 .A = 0x00 ∧
    (Registers.default.dec16 .SP).fetch16 .SP = 0xFFFF := by
  have h1 : regsC6.Wf := by unfold Registers.Wf; decide
  have h2 : Registers.default.Wf := by unfold Registers.Wf; decide
  exact ⟨(c6_inc_dec_wrap.1 .A regsC6 h1).1, (c6_inc_dec_wrap.2 .SP Registers.default h2).2⟩

/-! ## Claim C8 -/

/-- Claim C8: for each pair id `AF, BC, DE, HL` and every `v < 0x10000`,
writing `v` then fetching returns `v`; after the write the first-named
8-bit register holds `v`'s high byte and the second-named register its low
byte; and fetching a pair always composes its halves as
`high * 256 + low`. -/
theorem c8_pair_write_fetch_roundtrip :
    ∀ v : Nat, v < 65536 → ∀ regs : Registers,
      ((regs.write16 .AF v).fetch16 .AF = v ∧
        (regs.write16 .AF v).a = v / 256 ∧ (regs.write16 .AF v).f = v % 256) ∧
      ((regs.write16 .BC v).fetch16 .BC = v ∧
        (regs.write16 .BC v).b = v / 256 ∧ (regs.write16 .BC v).c = v % 256) ∧
      ((regs.write16 .DE v).fetch16 .DE = v ∧
        (regs.write16 .DE v).d = v / 256 ∧ (regs.write16 .DE v).e = v % 256) ∧
      ((regs.write16 .HL v).fetch16 .HL = v ∧
        (regs.write16 .HL v).h = v / 256 ∧ (regs.write16 .HL v).l = v % 256) ∧
      (regs.fetch16 .AF = regs.a * 256 + regs.f ∧
        regs.fetch16 .BC = regs.b * 256 + regs.c ∧
        regs.fetch16 .DE = regs.d * 256 + regs.e ∧
        regs.fetch16 .HL = regs.h * 256 + regs.l) := by
  intro v hv regs
  refine ⟨⟨?_, ?_, rfl⟩, ⟨?_, ?_, rfl⟩, ⟨?_, ?_, rfl⟩, ⟨?_, ?_, rfl⟩, rfl, rfl, rfl, rfl⟩ <;>
    simp [Registers.write16, Registers.fetch16] <;> omega

/-- Witness for `c8_pair_write_fetch_roundtrip` at the spot-check value
`0xA445` on `AF`. -/
theorem c8_pair_write_fetch_roundtrip_witness :
    (Registers.default.write16 .AF 0xA445).fetch16 .AF = 0xA445 ∧
    (Registers.default.write16 .AF 0xA445).a = 0xA4 ∧
    (Registers.default.write16 .AF 0xA445).f = 0x45 :=
  (c8_pair_write_fetch_roundtrip 0xA445 (by decide) Registers.default).1

/-! ## Claim C5 -/

/-- Claim C5 (code bug): memory does not span the full 16-bit address
space.  `Memory` is `[u8; 0xFFFF]`, i.e. 65,535 bytes, so the single-byte
`read_byte`/`write_byte` at address `0xFFFF` fail with `MemoryOverflow`
(while `0xFFFE` still succeeds), contradicting the claim and §9 of the
specification, which calls the smaller constant a bug. -/
theorem c5_memory_size_off_by_one :
    memSize = 65535 ∧
    Memory.default.read_byte 0xFFFE = .ok 0 ∧
    Memory.default.read_byte 0xFFFF = .error .readMemoryOverflow ∧
    Memory.default.write_byte 0xFFFF 0x00 = .error .writeMemoryOverflow :=
  ⟨rfl, rfl, rfl, rfl⟩

/-! ## Claim C7 -/

/-- Reading a list back element-by-element with `getD` over its index range
reproduces the list. -/
theorem getD_range_map : ∀ l : List Nat,
    (List.range l.length).map (fun i => l.getD i 0) = l
  | [] => rfl
  | a :: t => by
    rw [List.length_cons, List.range_succ_eq_map, List.map_cons, List.map_map]
    refine congrArg₂ _ (List.getD_cons_zero) ?_
    have : ((fun i => (a :: t).getD i 0) ∘ Nat.succ) = fun i => t.getD i 0 := by
      funext i
      simp [Function.comp, List.getD_cons_succ]
    rw [this, getD_range_map t]

/-- Claim C7: `Memory.write` is atomic and round-trips with `Memory.read`.
When `addr + bytes.length` fits in the memory, the write succeeds, a
subsequent read of the same range returns exactly `bytes`, and every cell
outside the range is unchanged; when the range exceeds the bounds the
write fails with `MemoryOverflow` (the bounds check precedes any
mutation, so no cell is modified). -/
theorem c7_write_read_roundtrip_atomic :
    ∀ (m : Memory) (addr : Nat) (bytes : List Nat),
      (addr + bytes.length ≤ memSize →
        ∃ m' : Memory, m.write addr bytes = .ok m' ∧
          m'.read addr bytes.length = .ok bytes ∧
          ∀ j : Nat, j < addr ∨ addr + bytes.length ≤ j → m'.data j = m.data j) ∧
      (memSize < addr + bytes.length →
        m.write addr bytes = .error .writeMemoryOverflow) := by
  intro m addr bytes
  constructor
  · intro hle
    refine ⟨⟨fun i => if addr ≤ i ∧ i < addr + bytes.length then bytes.getD (i - addr) 0
        else m.data i⟩, ?_, ?_, ?_⟩
    · simp only [Memory.write]
      rw [if_pos hle]
    · simp only [Memory.read]
      rw [if_pos hle]
      refine congrArg _ ?_
      have hcongr : ∀ i ∈ List.range bytes.length,
          (if addr ≤ addr + i ∧ addr + i < addr + bytes.length
            then bytes.getD (addr + i - addr) 0 else m.data (addr + i)) =
          bytes.getD i 0 := by
        intro i hi
        rw [List.mem_range] at hi
        rw [if_pos ⟨Nat.le_add_right addr i, by omega⟩]
        refine congrArg₂ _ ?_ rfl
        omega
      rw [List.map_congr_left hcongr, getD_range_map bytes]
    · intro j hj
      simp only []
      rw [if_neg (by omega)]
  · intro hgt
    simp only [Memory.write]
    rw [if_neg (by omega)]

/-- Witness for `c7_write_read_roundtrip_atomic`: writing
`[0xAB, 0xCD, 0xEF]` at `0x100` round-trips. -/
theorem c7_write_read_roundtrip_atomic_witness :
    ∃ m' : Memory, Memory.default.write 0x100 [0xAB, 0xCD, 0xEF] = .ok m' ∧
      m'.read 0x100 ([0xAB, 0xCD, 0xEF] : List Nat).length = .ok [0xAB, 0xCD, 0xEF] ∧
      ∀ j : Nat, j < 0x100 ∨ 0x100 + ([0xAB, 0xCD, 0xEF] : List Nat).length ≤ j →
        m'.data j = Memory.default.data j :=
  (c7_write_read_roundtrip_atomic Memory.default 0x100 [0xAB, 0xCD, 0xEF]).1 (by decide)

/-! ## Claim C10 -/

/-- A CPU seeded so that its first instruction (`0x02`, `LD (BC),A` with
`BC = 0x100`, `A = 0x55`) stores into address `0x100`. -/
def cpuC10 : Cpu := ⟨{ Registers.default with a := 0x55, b := 0x01 },
  ⟨fun i => if i = 0 then 0x02 else 0⟩⟩

/-- Counterexample to claim C10: the cell at `0x100` does not stay `0x76`
from the first step onward — after one step of this program the cell holds
`0x55`, written by the executed store instruction. -/
theorem c10_halt_seed_overwritten :
    (run 1 cpuC10).map (fun c => c.mem.data 0x100) = .ok 0x55 ∧
    (0x55 : Nat) ≠ 0x76 :=
  ⟨rfl, by decide⟩

/-- Claim C10 (amended): `run` unconditionally writes `0x76` into memory at
`0x100` before executing any instruction: for every initial CPU state the
preamble succeeds, the resulting cell `0x100` holds `0x76`, and no other
memory cell or register is touched — though instructions executed later in
the loop may overwrite the cell. -/
theorem c10_run_seeds_halt_at_0x100 :
    ∀ c : Cpu, ∃ c' : Cpu, runStart c = .ok c' ∧
      c'.mem.data 0x100 = 0x76 ∧
      (∀ j : Nat, j ≠ 0x100 → c'.mem.data j = c.mem.data j) ∧
      c'.registers = c.registers := by
  intro c
  refine ⟨{ c with mem := ⟨fun i => if i = 0x100 then 0x76 else c.mem.data i⟩ }, ?_, ?_, ?_, rfl⟩
  · simp only [runStart, Memory.write_byte]
    rw [if_pos (by decide)]
  · simp
  · intro j hj
    simp [hj]

end Gaemboi
